import Mathlib

/-!
Verification of the vity CLI (src/vity/cli.py) against its specification.

The Python code is shallowly embedded: strings are Lean `String`s, Python's
substring test (`in`), `str.split`, `str.replace` and `str.strip` are
implemented over `List Char` with Python's semantics (leftmost,
non-overlapping occurrences; `strip` removes ASCII whitespace from both
ends, which covers every string this program manipulates).  File contents
are modelled as the list of their lines, matching the code's own
`content.split('\n')` / `'\n'.join(lines)` handling; the marker strings
contain no newline, so Python's substring test on the whole file content
is equivalent to a substring test line by line.  Fallible operations
return `Except`; the process side effects of one `do`/`chat` invocation
are modelled as a pure function from the invocation's inputs to a result
record (stdout lines, chat-history file state, shell-history file state,
exit code).
-/

/-- Python list-of-chars prefix test. -/
def isPrefixL : List Char → List Char → Bool
  | [], _ => true
  | _ :: _, [] => false
  | a :: as, b :: bs => a == b && isPrefixL as bs

/-- Python substring test `pat in s`, over char lists. -/
def containsL (pat : List Char) : List Char → Bool
  | [] => isPrefixL pat []
  | c :: t => isPrefixL pat (c :: t) || containsL pat t

/-- First occurrence of `pat` in `s`: `some (before, after)` with
`s = before ++ pat ++ after`, scanning from the left; `none` if absent. -/
def breakAt (pat : List Char) : List Char → Option (List Char × List Char)
  | [] => if isPrefixL pat [] then some ([], []) else none
  | c :: t =>
    if isPrefixL pat (c :: t) then some ([], (c :: t).drop pat.length)
    else
      match breakAt pat t with
      | some (b, a) => some (c :: b, a)
      | none => none

/-- Fuel-indexed worker for Python `str.split(sep)`: splits on every
occurrence, left to right.  Fuel keeps the recursion structural so the
kernel can evaluate it. -/
def splitLF (pat : List Char) : Nat → List Char → List (List Char)
  | 0, s => [s]
  | Nat.succ n, s =>
    match breakAt pat s with
    | none => [s]
    | some (b, a) => b :: splitLF pat n a

/-- Python `s.split(pat)` over char lists (for nonempty `pat`;
the code only splits on the nonempty separator listed below). -/
def splitL (pat s : List Char) : List (List Char) :=
  splitLF pat (s.length + 1) s

/-- Fuel-indexed worker for Python `str.replace(old, rep)`: replaces every
occurrence, left to right, without rescanning the replacement. -/
def replaceLF (old rep : List Char) : Nat → List Char → List Char
  | 0, s => s
  | Nat.succ n, s =>
    match breakAt old s with
    | none => s
    | some (b, a) => b ++ rep ++ replaceLF old rep n a

/-- Python `s.replace(old, rep)` over char lists (for nonempty `old`). -/
def replaceL (old rep s : List Char) : List Char :=
  replaceLF old rep (s.length + 1) s

/-- Whitespace stripped by Python's `str.strip()` (ASCII portion, which is
all the inputs of this program contain). -/
def isPySpace (c : Char) : Bool :=
  c == ' ' || c == '\t' || c == '\n' || c == '\r' || c == '\x0b' || c == '\x0c'

/-- Python `s.strip()` over char lists: drop leading and trailing
whitespace. -/
def stripL (s : List Char) : List Char :=
  (((s.dropWhile isPySpace).reverse.dropWhile isPySpace)).reverse

/-- Python `pat in s` on strings. -/
def pyContains (pat s : String) : Bool := containsL pat.data s.data

/-- Python `s.split(pat)` on strings. -/
def pySplit (pat s : String) : List String :=
  (splitL pat.data s.data).map String.mk

/-- Python `s.replace(old, rep)` on strings. -/
def pyReplace (old rep s : String) : String :=
  String.mk (replaceL old.data rep.data s.data)

/-- Python `s.strip()` on strings. -/
def pyStrip (s : String) : String := String.mk (stripL s.data)

/-- The command/comment delimiter the `do` branch looks for
(cli.py line 172). -/
def cmdDelim : String := " # "

/-- The annotation the `do` branch deletes from the comment segment
(cli.py line 174). -/
def genAnnot : String := " * vity generated command"

/-- The `cmd_string` built at cli.py lines 173-175:
`content.split(" # ")[0]` and
`content.split(" # ")[1].replace(" * vity generated command", "")`
joined as `f"{cmd_part} # {comment_part}"`.  Python's `[1]` is total here
because the branch is guarded by `" # " in content`; `getD` supplies the
(unreachable) default. -/
def cmdString (content : String) : String :=
  ((pySplit cmdDelim content).headD "") ++ " # " ++
    pyReplace genAnnot "" ((pySplit cmdDelim content).getD 1 "")

/-- The canonical string the `do` branch prints (cli.py lines 172-184):
`cmd_string` when the delimiter occurs, the raw text otherwise. -/
def renderCommand (content : String) : String :=
  if pyContains cmdDelim content then cmdString content else content

/-- The command/comment pair (the spec's `GeneratedCommand`) read off the
same two branches: a comment is produced only in the delimiter branch. -/
def parseCommand (content : String) : String × Option String :=
  if pyContains cmdDelim content then
    ((pySplit cmdDelim content).headD "",
      some (pyReplace genAnnot "" ((pySplit cmdDelim content).getD 1 "")))
  else (content, none)

/-- First-occurrence split: `(before, after)` around the first occurrence
of `pat`; `(s, "")` when `pat` does not occur (only used under an
occurrence test). -/
def splitFirst (pat s : String) : String × String :=
  match breakAt pat.data s.data with
  | some (b, a) => (String.mk b, String.mk a)
  | none => (s, "")

/-- List-of-chars suffix test. -/
def isSuffixL (pat s : List Char) : Bool := isPrefixL pat.reverse s.reverse

/-- Modelled from the claim's words, for comparison with the code: remove
the annotation only when it occurs as a trailing suffix of `r`, leave `r`
unchanged otherwise. -/
def stripTrailingAnnot (r : String) : String :=
  if isSuffixL genAnnot.data r.data then
    String.mk (r.data.take (r.data.length - genAnnot.data.length))
  else r

/-- The rendering C1 describes, word for word: split on the FIRST
occurrence of the delimiter, `rest` is everything to its right, the
annotation is stripped from `rest` only as a trailing suffix. -/
def renderCommandSpec (content : String) : String :=
  if pyContains cmdDelim content then
    (splitFirst cmdDelim content).1 ++ " # " ++
      stripTrailingAnnot (splitFirst cmdDelim content).2
  else content

/-- What the code actually computes, stated structurally: the comment
source is the segment strictly between the first and the second occurrence
of the delimiter (everything from the second occurrence on is discarded),
and every occurrence of the annotation inside that segment is removed. -/
def renderCommandAmended (content : String) : String :=
  if pyContains cmdDelim content then
    (splitFirst cmdDelim content).1 ++ " # " ++
      pyReplace genAnnot ""
        (if pyContains cmdDelim (splitFirst cmdDelim content).2 then
          (splitFirst cmdDelim (splitFirst cmdDelim content).2).1
        else (splitFirst cmdDelim content).2)
  else content


/-- One element of a message's `content` array: a JSON object that may or
may not carry a `"text"` entry (`part.get("text", "")`). -/
structure ContentPart where
  text : Option String
deriving DecidableEq

/-- One chat message: a JSON object that may carry `"role"`
(`msg.get("role")`) and `"content"` (`msg.get("content", [{}])`) entries. -/
structure ChatMsg where
  role : Option String
  content : Option (List ContentPart)
deriving DecidableEq

/-- Abbreviation for building the ordinary well-formed messages. -/
def mkMsg (role text : String) : ChatMsg :=
  ⟨some role, some [⟨some text⟩]⟩

/-- The scan at cli.py lines 163-167 (and 195-199):
`for msg in reversed(updated_chat_history): if msg.get("role") == "assistant"`. -/
def findLastAssistant (h : List ChatMsg) : Option ChatMsg :=
  h.reverse.find? (fun m => decide (m.role = some "assistant"))

/-- The extraction `last_assistant_msg.get("content", [{}])[0].get("text", "")`
(cli.py lines 171 and 202).  A missing `"content"` key defaults to `[{}]`,
whose first element has no `"text"`; a present but empty list makes the
Python indexing `[0]` raise `IndexError("list index out of range")`,
modelled as `Except.error`. -/
def extractText (m : ChatMsg) : Except String String :=
  match m.content.getD [⟨none⟩] with
  | [] => Except.error "list index out of range"
  | p :: _ => Except.ok (p.text.getD "")

/-- On-disk state of the chat-history file, as far as `json.load` is
concerned: absent (`FileNotFoundError`), present but not valid JSON
(`json.JSONDecodeError`), or a well-formed message array.  The JSON
serialisation itself is external library code and is abstracted to the
parse outcome. -/
inductive ChatFileState where
  | missing : ChatFileState
  | malformed : ChatFileState
  | wellFormed : List ChatMsg → ChatFileState
deriving DecidableEq

/-- Warning printed at cli.py line 153 (the interpolated path is abstracted
away; no claim depends on it). -/
def warnInvalidJson : String :=
  "⚠️  Warning: chat file contains invalid JSON, starting fresh"

/-- cli.py lines 144-154: the chat history loaded for the invocation plus
the warnings printed while loading.  `none` means no `-c` flag was given;
a missing file and malformed JSON both degrade to the empty history, the
latter with a warning. -/
def loadChatHistory : Option ChatFileState → List ChatMsg × List String
  | none => ([], [])
  | some ChatFileState.missing => ([], [])
  | some ChatFileState.malformed => ([], [warnInvalidJson])
  | some (ChatFileState.wellFormed msgs) => (msgs, [])

/-- cli.py lines 186-189 and 205-208: `if args.chat_file:` rewrite the file
wholesale with the updated history. -/
def saveChat : Option ChatFileState → List ChatMsg → Option ChatFileState
  | none, _ => none
  | some _, updated => some (ChatFileState.wellFormed updated)

/-- cli.py lines 179-182: append to `~/.bash_history` only when that file
exists (`none` models a missing file and stays `none`). -/
def appendBash (bash : Option String) (line : String) : Option String :=
  match bash with
  | none => none
  | some c => some (c ++ line ++ "\n")

def thinkingLine : String := "🤖 Vity is thinking..."

/-- cli.py line 211: `print(f"❌ Error: {e}")`. -/
def errorLine (e : String) : String := "❌ Error: " ++ e

/-- Result of one `do`/`chat` invocation: printed lines, the chat-history
file afterwards, the shell-history file afterwards, and the exit code
(`sys.exit(1)` in the `except` handler, 0 on normal return). -/
structure RunResult where
  stdout : List String
  chatFile : Option ChatFileState
  bashFile : Option String
  exitCode : Nat
deriving DecidableEq

/-- The `do` branch, cli.py lines 144-189 plus the surrounding
`try`/`except` (lines 158, 210-212).  `model` is the external
`generate_command` client applied to the loaded chat history (terminal log
and user input are fixed inside it); an exception anywhere in the `try`
block reaches the handler, which prints the error and exits 1 with no
further file writes. -/
def runDo (model : List ChatMsg → Except String (List ChatMsg))
    (chatArg : Option ChatFileState) (bash : Option String) : RunResult :=
  let loaded := loadChatHistory chatArg
  let pre := loaded.2 ++ [thinkingLine]
  match model loaded.1 with
  | Except.error e => ⟨pre ++ [errorLine e], chatArg, bash, 1⟩
  | Except.ok updated =>
    match findLastAssistant updated with
    | none => ⟨pre, saveChat chatArg updated, bash, 0⟩
    | some m =>
      match extractText m with
      | Except.error e => ⟨pre ++ [errorLine e], chatArg, bash, 1⟩
      | Except.ok content =>
        if pyContains cmdDelim content then
          ⟨pre ++ ["Command: " ++ cmdString content],
            saveChat chatArg updated,
            appendBash bash (cmdString content ++ " # Vity generated"),
            0⟩
        else
          ⟨pre ++ ["Command: " ++ content], saveChat chatArg updated, bash, 0⟩

/-- The `chat` branch, cli.py lines 191-208 plus the same `try`/`except`:
prints the raw text of the last assistant message, saves the chat file,
and never touches the shell-history file. -/
def runChat (model : List ChatMsg → Except String (List ChatMsg))
    (chatArg : Option ChatFileState) (bash : Option String) : RunResult :=
  let loaded := loadChatHistory chatArg
  let pre := loaded.2 ++ [thinkingLine]
  match model loaded.1 with
  | Except.error e => ⟨pre ++ [errorLine e], chatArg, bash, 1⟩
  | Except.ok updated =>
    match findLastAssistant updated with
    | none => ⟨pre, saveChat chatArg updated, bash, 0⟩
    | some m =>
      match extractText m with
      | Except.error e => ⟨pre ++ [errorLine e], chatArg, bash, 1⟩
      | Except.ok content =>
        ⟨pre ++ [content], saveChat chatArg updated, bash, 0⟩

/-- The marker line that opens the integration block
(cli.py lines 218, 340, 370). -/
def markerLine : String := "# Vity shell integration"

/-- The trimmed content of the line that closes the integration block
(cli.py line 374). -/
def closeLine : String := "\x7d"

/-- The lines the `install` append adds to the profile file.  `install`
appends `"\n" + script_content` to the existing content (cli.py lines
341-342); since the file content and the appended text meet at an explicit
newline, the resulting file's line list is the old line list followed by
`script_content.split('\n')`, which is this 119-element list (the
`script_content` triple-quoted literal of cli.py lines 217-335 starts and
ends with a newline, hence the leading and trailing empty lines). -/
def installAppendLines : List String :=
  [ "",
    "# Vity shell integration",
    "vity() \x7b",
    "    if [[ \"$1\" == \"record\" ]]; then",
    "        shift",
    "        log_dir=\"$HOME/.local/share/vity/logs\"",
    "        chat_dir=\"$HOME/.local/share/vity/chat\"",
    "        mkdir -p \"$log_dir\"",
    "        mkdir -p \"$chat_dir\"",
    "        logfile=\"$log_dir/$(date +%Y%m%d-%H%M%S)-$$.log\"",
    "        chatfile=\"$chat_dir/$(date +%Y%m%d-%H%M%S)-$$.json\"",
    "        ",
    "        export VITY_ACTIVE_LOG=\"$logfile\"",
    "        export VITY_ACTIVE_CHAT=\"$chatfile\"",
    "        export VITY_RECORDING=\"🔴\"",
    "        export VITY_OLD_PS1=\"$PS1\"",
    "        export PS1=\"$VITY_RECORDING $PS1\"",
    "        echo -ne \"\\033]0;🔴 RECORDING - Vity Session\\007\"",
    "        ",
    "        echo \"🔴 Starting recording session\"",
    "        echo \"📝 Use \x27vity do\x27 or \x27vity chat\x27 for contextual help\"",
    "        echo \"🛑 Type \x27exit\x27 to stop recording\"",
    "        ",
    "        script -f \"$logfile\"",
    "        ",
    "        unset VITY_ACTIVE_LOG VITY_ACTIVE_CHAT VITY_RECORDING VITY_OLD_PS1",
    "        export PS1=\"$VITY_OLD_PS1\"",
    "        # Don\x27t change terminal title on exit - let terminal use its default behavior",
    "        echo \"🟢 Recording session ended\"",
    "        ",
    "    elif [[ \"$1\" == \"do\" ]]; then",
    "        shift",
    "        if [[ -n \"$VITY_ACTIVE_LOG\" && -f \"$VITY_ACTIVE_LOG\" ]]; then",
    "            command vity -f \"$VITY_ACTIVE_LOG\" -c \"$VITY_ACTIVE_CHAT\" do \"$@\"",
    "        else",
    "            echo \"⚠️  No active recording. Use \x27vity record\x27 for context.\"",
    "            command vity do \"$@\"",
    "        fi",
    "        ",
    "    elif [[ \"$1\" == \"chat\" ]]; then",
    "        shift",
    "        if [[ -n \"$VITY_ACTIVE_LOG\" && -f \"$VITY_ACTIVE_LOG\" ]]; then",
    "            command vity -f \"$VITY_ACTIVE_LOG\" -c \"$VITY_ACTIVE_CHAT\" chat \"$@\"",
    "        else",
    "            echo \"⚠️  No active recording. Use \x27vity record\x27 for context.\"",
    "            command vity chat \"$@\"",
    "        fi",
    "        ",
    "    elif [[ \"$1\" == \"status\" ]]; then",
    "        if [[ -n \"$VITY_ACTIVE_LOG\" ]]; then",
    "            echo \"🔴 Recording active:\"",
    "            echo \"  📝 Terminal log: $VITY_ACTIVE_LOG\"",
    "            echo \"  💬 Chat history: $VITY_ACTIVE_CHAT\"",
    "        else",
    "            echo \"⚫ No active recording\"",
    "        fi",
    "        ",
    "    elif [[ \"$1\" == \"help\" || \"$1\" == \"-h\" || \"$1\" == \"--help\" ]]; then",
    "        cat << \x27EOF\x27",
    "🤖 Vity - AI Terminal Assistant",
    "",
    "USAGE:",
    "    vity <command> [options] [prompt]",
    "",
    "COMMANDS:",
    "    do <prompt>      Generate a shell command (adds to history)",
    "    chat <prompt>    Chat with AI about terminal/coding topics",
    "    record           Start recording session for context",
    "    status           Show current recording status",
    "    config           Show configuration",
    "    config --reset   Reset configuration (always available)",
    "    install          Install shell integration (always available)",
    "    reinstall        Reinstall shell integration (always available)",
    "    help             Show this help message",
    "",
    "EXAMPLES:",
    "    vity do \"find all python files\"",
    "    vity chat \"explain this error message\"",
    "    vity record",
    "    vity do \"deploy the app\"  # (with context from recording)",
    "    vity status",
    "    vity config --reset",
    "    vity reinstall",
    "",
    "CONTEXT:",
    "    • Use \x27vity record\x27 to start capturing session context",
    "    • Commands run during recording provide better AI responses",
    "    • Recording captures both terminal output and chat history",
    "    • Recording indicator (🔴) shows in your prompt",
    "    • Use \x27exit\x27 to stop recording",
    "EOF",
    "        ",
    "    else",
    "        # Show help for unknown commands or no arguments",
    "        if [[ -n \"$1\" ]]; then",
    "            echo \"❌ Unknown command: $1\"",
    "            echo \"\"",
    "        fi",
    "        echo \"🤖 Vity - AI Terminal Assistant\"",
    "        echo \"\"",
    "        echo \"Usage: vity <command> [prompt]\"",
    "        echo \"\"",
    "        echo \"Commands:\"",
    "        echo \"  do <prompt>      Generate shell command\"",
    "        echo \"  chat <prompt>    Chat with AI\"",
    "        echo \"  record           Start recording session\"",
    "        echo \"  status           Show recording status\"",
    "        echo \"  config           Show configuration\"",
    "        echo \"  config --reset   Reset configuration\"",
    "        echo \"  install          Install shell integration\"",
    "        echo \"  reinstall        Reinstall shell integration\"",
    "        echo \"  help             Show detailed help\"",
    "        echo \"\"",
    "        echo \"Run \x27vity help\x27 for more details and examples.\"",
    "    fi",
    "    ",
    "    history -n 2>/dev/null || true",
    "\x7d",
    "" ]

/-- cli.py lines 337-348 on an existing profile file, at line level:
append the block unless the marker text already occurs somewhere in the
content (`"# Vity shell integration" not in content`; the marker contains
no newline, so the content-level substring test holds iff some line passes
it). -/
def installFile (lines : List String) : List String :=
  if lines.any (fun l => pyContains markerLine l) then lines
  else lines ++ installAppendLines

/-- The removal loop of `reinstall_shell_integration`
(cli.py lines 365-378), with the `in_vity_section` flag as state: a line
whose `strip()` is the marker enters the section and is dropped; while
inside, a line whose `strip()` is `"\x7d"` leaves the section and is
dropped; other lines are kept exactly when outside the section. -/
def removeBlockAux : Bool → List String → List String
  | _, [] => []
  | inB, l :: ls =>
    if pyStrip l = markerLine then removeBlockAux true ls
    else if inB && decide (pyStrip l = closeLine) then removeBlockAux false ls
    else if !inB then l :: removeBlockAux inB ls
    else removeBlockAux inB ls

/-- The whole removal pass (cli.py lines 362-381): split into lines,
filter, join back. -/
def removeBlock (lines : List String) : List String :=
  removeBlockAux false lines

/-- cli.py lines 351-385: `reinstall` = removal pass, write back, then
`install` on the written content. -/
def reinstallFile (lines : List String) : List String :=
  installFile (removeBlock lines)

/-- Block recogniser, used to state what "the file contains
integration blocks" means: the same marker/close scan as the removal loop,
returning how many complete blocks occur and whether the scan ends still
inside an unclosed block. -/
def scanBlocks : Bool → List String → Nat × Bool
  | inB, [] => (0, inB)
  | inB, l :: ls =>
    if pyStrip l = markerLine then scanBlocks true ls
    else if inB && decide (pyStrip l = closeLine) then
      ((scanBlocks false ls).1 + 1, (scanBlocks false ls).2)
    else scanBlocks inB ls

/-- Number of lines that are exactly the marker line. -/
def countMarkerLines (lines : List String) : Nat :=
  lines.countP (fun l => decide (l = markerLine))


theorem isPrefixL_iff : ∀ (p s : List Char), isPrefixL p s = true ↔ ∃ t, s = p ++ t
  | [], s => by simp [isPrefixL]
  | _ :: _, [] => by
    constructor
    · intro h
      simp [isPrefixL] at h
    · rintro ⟨t, ht⟩
      exact List.noConfusion ht
  | a :: as, b :: bs => by
    simp only [isPrefixL, Bool.and_eq_true, beq_iff_eq]
    constructor
    · rintro ⟨rfl, h⟩
      obtain ⟨t, rfl⟩ := (isPrefixL_iff as bs).mp h
      exact ⟨t, rfl⟩
    · rintro ⟨t, ht⟩
      injection ht with h1 h2
      exact ⟨h1.symm, (isPrefixL_iff as bs).mpr ⟨t, h2⟩⟩

theorem containsL_of_decomp (p : List Char) :
    ∀ (u s v : List Char), s = u ++ p ++ v → containsL p s = true := by
  intro u
  induction u with
  | nil =>
    intro s v hs
    cases s with
    | nil =>
      simp only [List.nil_append] at hs
      unfold containsL
      have h : isPrefixL p [] = true := (isPrefixL_iff p []).mpr ⟨v, hs⟩
      rw [h]
    | cons c t =>
      unfold containsL
      have h : isPrefixL p (c :: t) = true := (isPrefixL_iff p (c :: t)).mpr ⟨v, by simpa using hs⟩
      rw [h]
      rfl
  | cons c u ih =>
    intro s v hs
    cases s with
    | nil => exact absurd hs (by simp)
    | cons c₂ t =>
      unfold containsL
      injection hs with h3 h4
      rw [ih t v h4]
      simp

theorem containsL_eq_isSome (pat : List Char) :
    ∀ s, containsL pat s = (breakAt pat s).isSome
  | [] => by
    unfold containsL breakAt
    cases hp : isPrefixL pat [] <;> simp [hp]
  | c :: t => by
    unfold containsL breakAt
    cases hp : isPrefixL pat (c :: t) with
    | true => simp
    | false =>
      simp only [Bool.false_or]
      rw [containsL_eq_isSome pat t]
      cases hb : breakAt pat t with
      | none => simp
      | some p => cases p; simp

theorem breakAt_decomp (pat : List Char) :
    ∀ (s b a : List Char), breakAt pat s = some (b, a) → s = b ++ pat ++ a
  | [], b, a => by
    intro h
    unfold breakAt at h
    cases hp : isPrefixL pat [] with
    | false => rw [hp] at h; simp at h
    | true =>
      rw [hp] at h
      simp only [if_true] at h
      obtain ⟨t, ht⟩ := (isPrefixL_iff pat []).mp hp
      obtain ⟨hpat, ht'⟩ := List.append_eq_nil.mp ht.symm
      simp only [Option.some.injEq, Prod.mk.injEq] at h
      obtain ⟨h1, h2⟩ := h
      subst h1; subst h2; subst hpat
      rfl
  | c :: t, b, a => by
    intro h
    unfold breakAt at h
    cases hp : isPrefixL pat (c :: t) with
    | true =>
      rw [hp] at h
      simp only [if_true] at h
      simp only [Option.some.injEq, Prod.mk.injEq] at h
      obtain ⟨h1, h2⟩ := h
      obtain ⟨t', ht'⟩ := (isPrefixL_iff pat (c :: t)).mp hp
      subst h1
      rw [ht', List.drop_left pat t'] at h2
      subst h2
      simpa using ht'
    | false =>
      rw [hp] at h
      simp only [Bool.false_eq_true, if_false] at h
      cases hb : breakAt pat t with
      | none => rw [hb] at h; simp at h
      | some p =>
        obtain ⟨b', a'⟩ := p
        rw [hb] at h
        simp only [Option.some.injEq, Prod.mk.injEq] at h
        obtain ⟨h1, h2⟩ := h
        have hdec := breakAt_decomp pat t b' a' hb
        subst h2
        rw [← h1]
        simp [hdec]

theorem breakAt_length (pat : List Char) (hp : pat ≠ [])
    (s b a : List Char) (h : breakAt pat s = some (b, a)) : a.length < s.length := by
  have hd := breakAt_decomp pat s b a h
  have hpos : 0 < pat.length := List.length_pos.mpr hp
  subst hd
  simp only [List.length_append]
  omega

theorem splitLF_succ_some (pat : List Char) (n : Nat) (s b a : List Char)
    (hb : breakAt pat s = some (b, a)) :
    splitLF pat (Nat.succ n) s = b :: splitLF pat n a := by
  conv_lhs => unfold splitLF
  rw [hb]

theorem splitLF_succ_none (pat : List Char) (n : Nat) (s : List Char)
    (hb : breakAt pat s = none) : splitLF pat (Nat.succ n) s = [s] := by
  conv_lhs => unfold splitLF
  rw [hb]

theorem splitLF_congr (pat : List Char) (hp : pat ≠ []) :
    ∀ (n m : Nat) (s : List Char), s.length < n → s.length < m →
      splitLF pat n s = splitLF pat m s
  | 0, _, _ => fun h _ => absurd h (Nat.not_lt_zero _)
  | Nat.succ _, 0, _ => fun _ h => absurd h (Nat.not_lt_zero _)
  | Nat.succ n, Nat.succ m, s => fun hn hm => by
    cases hb : breakAt pat s with
    | none => rw [splitLF_succ_none pat n s hb, splitLF_succ_none pat m s hb]
    | some p =>
      obtain ⟨b, a⟩ := p
      have hl := breakAt_length pat hp s b a hb
      have h1 : a.length < n := Nat.lt_of_lt_of_le hl (Nat.lt_succ_iff.mp hn)
      have h2 : a.length < m := Nat.lt_of_lt_of_le hl (Nat.lt_succ_iff.mp hm)
      rw [splitLF_succ_some pat n s b a hb, splitLF_succ_some pat m s b a hb,
        splitLF_congr pat hp n m a h1 h2]

theorem splitL_some (pat s b a : List Char) (hp : pat ≠ [])
    (hb : breakAt pat s = some (b, a)) : splitL pat s = b :: splitL pat a := by
  have hl := breakAt_length pat hp s b a hb
  show splitLF pat (Nat.succ s.length) s = b :: splitL pat a
  rw [splitLF_succ_some pat s.length s b a hb,
    splitLF_congr pat hp s.length (Nat.succ a.length) a hl (Nat.lt_succ_self _)]
  rfl

theorem splitL_none (pat s : List Char) (hb : breakAt pat s = none) :
    splitL pat s = [s] := by
  show splitLF pat (Nat.succ s.length) s = [s]
  exact splitLF_succ_none pat s.length s hb

theorem stripL_decomp (s : List Char) : ∃ u v, s = u ++ stripL s ++ v := by
  refine ⟨s.takeWhile isPySpace,
    ((s.dropWhile isPySpace).reverse.takeWhile isPySpace).reverse, ?_⟩
  conv_lhs => rw [← List.takeWhile_append_dropWhile isPySpace s]
  rw [List.append_assoc]
  congr 1
  conv_lhs => rw [← List.reverse_reverse (s.dropWhile isPySpace),
    ← List.takeWhile_append_dropWhile isPySpace (s.dropWhile isPySpace).reverse]
  rw [List.reverse_append]
  rfl

theorem pyContains_of_pyStrip_eq (l x : String) (h : pyStrip l = x) :
    pyContains x l = true := by
  have hd : stripL l.data = x.data := congrArg String.data h
  obtain ⟨u, v, hs⟩ := stripL_decomp l.data
  rw [hd] at hs
  exact containsL_of_decomp x.data u l.data v hs

theorem pyStrip_ne_of_not_contains (l x : String) (h : pyContains x l = false) :
    pyStrip l ≠ x := by
  intro he
  rw [pyContains_of_pyStrip_eq l x he] at h
  exact Bool.noConfusion h


theorem renderCommand_eq_amended (content : String) :
    renderCommand content = renderCommandAmended content := by
  by_cases hc : pyContains cmdDelim content = true
  case neg =>
    unfold renderCommand renderCommandAmended
    rw [if_neg hc, if_neg hc]
  case pos =>
    unfold renderCommand renderCommandAmended cmdString
    rw [if_pos hc, if_pos hc]
    have h1 : containsL cmdDelim.data content.data = true := hc
    rw [containsL_eq_isSome] at h1
    obtain ⟨p, hb⟩ := Option.isSome_iff_exists.mp h1
    obtain ⟨b, a⟩ := p
    have hd : cmdDelim.data ≠ ([] : List Char) := by decide
    have hsf : splitFirst cmdDelim content = (String.mk b, String.mk a) := by
      unfold splitFirst; rw [hb]
    have hsplit := splitL_some cmdDelim.data content.data b a hd hb
    rw [hsf]
    unfold pySplit
    rw [hsplit]
    cases ha : breakAt cmdDelim.data a with
    | none =>
      have hNone := splitL_none cmdDelim.data a ha
      rw [hNone]
      have hcontA : pyContains cmdDelim (String.mk a) = false := by
        show containsL cmdDelim.data a = false
        rw [containsL_eq_isSome, ha]
        rfl
      rw [if_neg (by simp [hcontA])]
      simp
    | some p2 =>
      obtain ⟨b2, a2⟩ := p2
      have hSome := splitL_some cmdDelim.data a b2 a2 hd ha
      rw [hSome]
      have hcontA : pyContains cmdDelim (String.mk a) = true := by
        show containsL cmdDelim.data a = true
        rw [containsL_eq_isSome, ha]
        rfl
      rw [if_pos hcontA]
      have hsf2 : splitFirst cmdDelim (String.mk a) = (String.mk b2, String.mk a2) := by
        unfold splitFirst
        show (match breakAt cmdDelim.data a with
          | some (b, a) => (String.mk b, String.mk a)
          | none => (String.mk a, "")) = (String.mk b2, String.mk a2)
        rw [ha]
      rw [hsf2]
      simp

theorem removeBlockAux_cons_marker (inB : Bool) (l : String) (ls : List String)
    (h : pyStrip l = markerLine) :
    removeBlockAux inB (l :: ls) = removeBlockAux true ls := by
  conv_lhs => unfold removeBlockAux
  rw [if_pos h]

theorem removeBlockAux_cons_outside (l : String) (ls : List String)
    (h : pyStrip l ≠ markerLine) :
    removeBlockAux false (l :: ls) = l :: removeBlockAux false ls := by
  conv_lhs => unfold removeBlockAux
  rw [if_neg h]
  rfl

theorem removeBlockAux_cons_close (l : String) (ls : List String)
    (h1 : pyStrip l ≠ markerLine) (h2 : pyStrip l = closeLine) :
    removeBlockAux true (l :: ls) = removeBlockAux false ls := by
  have hcond : (true && decide (pyStrip l = closeLine)) = true := by simp [h2]
  conv_lhs => unfold removeBlockAux
  rw [if_neg h1, if_pos hcond]

theorem removeBlockAux_cons_inblock (l : String) (ls : List String)
    (h1 : pyStrip l ≠ markerLine) (h2 : pyStrip l ≠ closeLine) :
    removeBlockAux true (l :: ls) = removeBlockAux true ls := by
  have hcond : ¬((true && decide (pyStrip l = closeLine)) = true) := by simp [h2]
  conv_lhs => unfold removeBlockAux
  rw [if_neg h1, if_neg hcond]
  rfl

theorem removeBlockAux_false_append (xs ys : List String)
    (h : ∀ l ∈ xs, pyStrip l ≠ markerLine) :
    removeBlockAux false (xs ++ ys) = xs ++ removeBlockAux false ys := by
  induction xs with
  | nil => rfl
  | cons x xs ih =>
    show removeBlockAux false (x :: (xs ++ ys)) = x :: (xs ++ removeBlockAux false ys)
    rw [removeBlockAux_cons_outside x (xs ++ ys) (h x (by simp)),
      ih (fun l hl => h l (List.mem_cons_of_mem x hl))]

theorem removeBlockAux_true_skip (xs ys : List String)
    (h : ∀ l ∈ xs, pyStrip l ≠ markerLine ∧ pyStrip l ≠ closeLine) :
    removeBlockAux true (xs ++ ys) = removeBlockAux true ys := by
  induction xs with
  | nil => rfl
  | cons x xs ih =>
    obtain ⟨hm, hc⟩ := h x (by simp)
    show removeBlockAux true (x :: (xs ++ ys)) = removeBlockAux true ys
    rw [removeBlockAux_cons_inblock x (xs ++ ys) hm hc,
      ih (fun l hl => h l (List.mem_cons_of_mem x hl))]

theorem scanBlocks_cons_outside (l : String) (ls : List String)
    (h : pyStrip l ≠ markerLine) :
    scanBlocks false (l :: ls) = scanBlocks false ls := by
  conv_lhs => unfold scanBlocks
  rw [if_neg h]
  rfl

theorem scanBlocks_false_append (xs ys : List String)
    (h : ∀ l ∈ xs, pyStrip l ≠ markerLine) :
    scanBlocks false (xs ++ ys) = scanBlocks false ys := by
  induction xs with
  | nil => rfl
  | cons x xs ih =>
    show scanBlocks false (x :: (xs ++ ys)) = scanBlocks false ys
    rw [scanBlocks_cons_outside x (xs ++ ys) (h x (by simp)),
      ih (fun l hl => h l (List.mem_cons_of_mem x hl))]

theorem installFile_of_marker (lines : List String)
    (h : lines.any (fun l => pyContains markerLine l) = true) :
    installFile lines = lines := by
  unfold installFile
  rw [if_pos h]

theorem installFile_of_no_marker (lines : List String)
    (h : lines.any (fun l => pyContains markerLine l) = false) :
    installFile lines = lines ++ installAppendLines := by
  unfold installFile
  rw [if_neg (by simp [h])]

/-- C2: for a profile file consisting of one integration block (a marker
line `m`, interior `mid` with no marker and no closing line, a closing
line `c`) surrounded by lines that do not mention the marker text,
`reinstall` keeps all outside lines verbatim and in order and the result
again holds exactly one complete block.  (The hypothesis that the outside
lines do not contain the marker text as a substring is necessary: see the
counterexample.) -/
theorem reinstallExactness
    (pre mid post : List String) (m c : String)
    (hm : pyStrip m = markerLine) (hc : pyStrip c = closeLine)
    (hpre : ∀ l ∈ pre, pyContains markerLine l = false)
    (hpost : ∀ l ∈ post, pyContains markerLine l = false)
    (hmidm : ∀ l ∈ mid, pyStrip l ≠ markerLine)
    (hmidc : ∀ l ∈ mid, pyStrip l ≠ closeLine) :
    reinstallFile (pre ++ m :: (mid ++ c :: post)) = (pre ++ post) ++ installAppendLines
    ∧ scanBlocks false ((pre ++ post) ++ installAppendLines) = (1, false) := by
  have hpre' : ∀ l ∈ pre, pyStrip l ≠ markerLine := fun l hl =>
    pyStrip_ne_of_not_contains l markerLine (hpre l hl)
  have hpost' : ∀ l ∈ post, pyStrip l ≠ markerLine := fun l hl =>
    pyStrip_ne_of_not_contains l markerLine (hpost l hl)
  have hcm : pyStrip c ≠ markerLine := by
    rw [hc]
    decide
  have hremove : removeBlock (pre ++ m :: (mid ++ c :: post)) = pre ++ post := by
    unfold removeBlock
    rw [removeBlockAux_false_append pre (m :: (mid ++ c :: post)) hpre',
      removeBlockAux_cons_marker false m (mid ++ c :: post) hm,
      removeBlockAux_true_skip mid (c :: post) (fun l hl => ⟨hmidm l hl, hmidc l hl⟩),
      removeBlockAux_cons_close c post hcm hc]
    have hp : removeBlockAux false post = post := by
      have h0 := removeBlockAux_false_append post [] hpost'
      rw [List.append_nil] at h0
      rw [h0, show removeBlockAux false [] = [] from rfl, List.append_nil]
    rw [hp]
  have hany : (pre ++ post).any (fun l => pyContains markerLine l) = false := by
    rw [List.any_eq_false]
    intro x hx
    rcases List.mem_append.mp hx with h1 | h2
    · simp [hpre x h1]
    · simp [hpost x h2]
  constructor
  · unfold reinstallFile
    rw [hremove]
    exact installFile_of_no_marker (pre ++ post) hany
  · rw [scanBlocks_false_append (pre ++ post) installAppendLines (fun l hl => by
      rcases List.mem_append.mp hl with h1 | h2
      · exact hpre' l h1
      · exact hpost' l h2)]
    decide

/-- C5 (amended): `install` is idempotent — a second run never changes the
file — and on a profile file that nowhere contains the marker text two
runs leave exactly one marker line.  (The substring hypothesis is
necessary: see the counterexample.) -/
theorem installIdempotent (lines : List String) :
    installFile (installFile lines) = installFile lines
    ∧ ((∀ l ∈ lines, pyContains markerLine l = false) →
        countMarkerLines (installFile (installFile lines)) = 1) := by
  by_cases h : lines.any (fun l => pyContains markerLine l) = true
  · refine ⟨?_, ?_⟩
    · rw [installFile_of_marker lines h, installFile_of_marker lines h]
    · intro hall
      obtain ⟨x, hx, hpx⟩ := List.any_eq_true.mp h
      rw [hall x hx] at hpx
      exact Bool.noConfusion hpx
  · have h' : lines.any (fun l => pyContains markerLine l) = false :=
      Bool.eq_false_iff.mpr h
    have hin : installFile lines = lines ++ installAppendLines :=
      installFile_of_no_marker lines h'
    have hout : (lines ++ installAppendLines).any (fun l => pyContains markerLine l) = true := by
      rw [List.any_append]
      have happ : installAppendLines.any (fun l => pyContains markerLine l) = true := by decide
      rw [happ, Bool.or_true]
    refine ⟨?_, ?_⟩
    · rw [hin, installFile_of_marker (lines ++ installAppendLines) hout]
    · intro hall
      rw [hin, installFile_of_marker (lines ++ installAppendLines) hout]
      unfold countMarkerLines
      rw [List.countP_append]
      have hz : List.countP (fun l => decide (l = markerLine)) lines = 0 := by
        rw [List.countP_eq_zero]
        intro a ha hda
        have hEq : a = markerLine := of_decide_eq_true hda
        subst hEq
        have hcontr := hall _ ha
        rw [show pyContains markerLine markerLine = true from by decide] at hcontr
        exact Bool.noConfusion hcontr
      rw [hz]
      have hone : List.countP (fun l => decide (l = markerLine)) installAppendLines = 1 := by
        decide
      rw [hone]

/-- C6: the extraction scans the updated history from the end backwards
and selects the most recent assistant message; with no assistant message
it selects nothing and the invocation prints nothing beyond the fixed
loading preamble. -/
theorem lastAssistantSelection :
    (∀ (h₁ h₂ : List ChatMsg) (m : ChatMsg),
      m.role = some "assistant" →
      (∀ x ∈ h₂, x.role ≠ some "assistant") →
      findLastAssistant (h₁ ++ m :: h₂) = some m)
    ∧ (∀ h : List ChatMsg, (∀ x ∈ h, x.role ≠ some "assistant") →
        findLastAssistant h = none
        ∧ ∀ (chatArg : Option ChatFileState) (bash : Option String),
            (runDo (fun _ => Except.ok h) chatArg bash).stdout
              = (loadChatHistory chatArg).2 ++ [thinkingLine]
            ∧ (runChat (fun _ => Except.ok h) chatArg bash).stdout
              = (loadChatHistory chatArg).2 ++ [thinkingLine]) := by
  constructor
  · intro h₁ h₂ m hm hnone
    unfold findLastAssistant
    rw [List.reverse_append, List.reverse_cons, List.append_assoc]
    rw [List.find?_append]
    have hn : h₂.reverse.find? (fun m => decide (m.role = some "assistant")) = none := by
      rw [List.find?_eq_none]
      intro x hx
      simp only [decide_eq_true_eq]
      exact hnone x (List.mem_reverse.mp hx)
    rw [hn, Option.none_or]
    show List.find? _ (m :: h₁.reverse) = some m
    rw [List.find?_cons_of_pos h₁.reverse (decide_eq_true hm)]
  · intro h hnone
    have hfla : findLastAssistant h = none := by
      unfold findLastAssistant
      rw [List.find?_eq_none]
      intro x hx
      simp only [decide_eq_true_eq]
      exact hnone x (List.mem_reverse.mp hx)
    refine ⟨hfla, ?_⟩
    intro chatArg bash
    constructor
    · simp [runDo, hfla]
    · simp [runChat, hfla]

/-- C4 (amended): a missing content key and a first content part without
text both degrade to the empty string; but an assistant message whose
content is a present-but-empty list raises IndexError, which reaches the
top-level handler: the error is printed and the invocation exits 1. -/
theorem extractionDegrades (m : ChatMsg) :
    (m.content = none → extractText m = Except.ok "")
    ∧ (∀ (p : ContentPart) (ps : List ContentPart),
        m.content = some (p :: ps) → p.text = none → extractText m = Except.ok "")
    ∧ (m.role = some "assistant" → m.content = some [] →
        ∀ (chatArg : Option ChatFileState) (bash : Option String),
          (runDo (fun _ => Except.ok [m]) chatArg bash).exitCode = 1
          ∧ errorLine "list index out of range"
              ∈ (runDo (fun _ => Except.ok [m]) chatArg bash).stdout) := by
  refine ⟨?_, ?_, ?_⟩
  · intro h
    unfold extractText
    rw [h]
    rfl
  · intro p ps h hp
    unfold extractText
    rw [h]
    show Except.ok (p.text.getD "") = Except.ok ""
    rw [hp]
    rfl
  · intro hrole hcont chatArg bash
    have hf : findLastAssistant [m] = some m := by
      unfold findLastAssistant
      simp [List.find?, hrole]
    have he : extractText m = Except.error "list index out of range" := by
      unfold extractText
      rw [hcont]
      rfl
    constructor
    · simp [runDo, hf, he]
    · simp [runDo, hf, he]

/-- C7: the chat-history loader returns the empty history silently when
the file is missing, the empty history plus a warning when the content is
not valid JSON, and the parsed messages in order otherwise; a malformed
file stays untouched until the next successful save, which overwrites
it wholesale. -/
theorem chatHistoryLoadPolicy :
    loadChatHistory (some ChatFileState.missing) = ([], [])
    ∧ loadChatHistory (some ChatFileState.malformed) = ([], [warnInvalidJson])
    ∧ (∀ msgs : List ChatMsg,
        loadChatHistory (some (ChatFileState.wellFormed msgs)) = (msgs, []))
    ∧ (∀ (model : List ChatMsg → Except String (List ChatMsg))
        (bash : Option String) (e : String),
        model [] = Except.error e →
        (runDo model (some ChatFileState.malformed) bash).chatFile
          = some ChatFileState.malformed)
    ∧ (∀ (model : List ChatMsg → Except String (List ChatMsg))
        (bash : Option String) (updated : List ChatMsg),
        model [] = Except.ok updated → findLastAssistant updated = none →
        (runDo model (some ChatFileState.malformed) bash).chatFile
          = some (ChatFileState.wellFormed updated)) := by
  refine ⟨rfl, rfl, fun msgs => rfl, ?_, ?_⟩
  · intro model bash e h
    simp [runDo, loadChatHistory, h]
  · intro model bash updated h hf
    simp [runDo, loadChatHistory, h, hf, saveChat]

/-- C8: a failing model call is reported, the invocation exits 1, and the
chat-history file is exactly as before, in both modes. -/
theorem modelFailureNoPersist
    (model : List ChatMsg → Except String (List ChatMsg))
    (chatArg : Option ChatFileState) (bash : Option String) (e : String)
    (h : model (loadChatHistory chatArg).1 = Except.error e) :
    ((runDo model chatArg bash).exitCode = 1
      ∧ (runDo model chatArg bash).chatFile = chatArg
      ∧ errorLine e ∈ (runDo model chatArg bash).stdout)
    ∧ ((runChat model chatArg bash).exitCode = 1
      ∧ (runChat model chatArg bash).chatFile = chatArg
      ∧ errorLine e ∈ (runChat model chatArg bash).stdout) := by
  refine ⟨⟨?_, ?_, ?_⟩, ⟨?_, ?_, ?_⟩⟩ <;> simp [runDo, runChat, h]

/-- C10: the chat branch never writes to the shell-history file, and with
no chat path supplied it writes no chat file either. -/
theorem chatModeFrame
    (model : List ChatMsg → Except String (List ChatMsg))
    (chatArg : Option ChatFileState) (bash : Option String) :
    (runChat model chatArg bash).bashFile = bash
    ∧ (chatArg = none → (runChat model chatArg bash).chatFile = none) := by
  refine ⟨?_, ?_⟩
  · cases hm : model (loadChatHistory chatArg).1 with
    | error e => simp [runChat, hm]
    | ok updated =>
      cases hf : findLastAssistant updated with
      | none => simp [runChat, hm, hf]
      | some m =>
        cases he : extractText m with
        | error e2 => simp [runChat, hm, hf, he]
        | ok content => simp [runChat, hm, hf, he]
  · intro hnone
    subst hnone
    cases hm : model (loadChatHistory none).1 with
    | error e => simp [runChat, hm]
    | ok updated =>
      cases hf : findLastAssistant updated with
      | none => simp [runChat, hm, hf, saveChat]
      | some m =>
        cases he : extractText m with
        | error e2 => simp [runChat, hm, hf, he]
        | ok content => simp [runChat, hm, hf, he, saveChat]

/-- C3 (amended): with a last assistant message whose text extraction
succeeds, the canonical rendered string is always printed; it is appended
(with the trailing generated-by annotation) to the shell-history file only
when the text contains the delimiter and the file exists; the append
silently no-ops when the file does not exist, and nothing is appended at
all when the delimiter is absent. -/
theorem doModeOutputs
    (model : List ChatMsg → Except String (List ChatMsg))
    (chatArg : Option ChatFileState) (bash : Option String)
    (updated : List ChatMsg) (m : ChatMsg) (content : String)
    (hm : model (loadChatHistory chatArg).1 = Except.ok updated)
    (hf : findLastAssistant updated = some m)
    (he : extractText m = Except.ok content) :
    (("Command: " ++ renderCommand content) ∈ (runDo model chatArg bash).stdout)
    ∧ (pyContains cmdDelim content = true →
        (runDo model chatArg bash).bashFile
          = appendBash bash (cmdString content ++ " # Vity generated"))
    ∧ (pyContains cmdDelim content = false →
        (runDo model chatArg bash).bashFile = bash)
    ∧ (bash = none → (runDo model chatArg bash).bashFile = none) := by
  by_cases hc : pyContains cmdDelim content = true
  · have hr : renderCommand content = cmdString content := by
      unfold renderCommand
      rw [if_pos hc]
    refine ⟨?_, fun _ => ?_, fun hfalse => ?_, fun hbn => ?_⟩
    · rw [hr]
      simp [runDo, hm, hf, he, hc]
    · simp [runDo, hm, hf, he, hc]
    · rw [hc] at hfalse
      exact Bool.noConfusion hfalse
    · subst hbn
      simp [runDo, hm, hf, he, hc, appendBash]
  · have hc' : pyContains cmdDelim content = false := Bool.eq_false_iff.mpr hc
    have hr : renderCommand content = content := by
      unfold renderCommand
      rw [if_neg hc]
    refine ⟨?_, fun htrue => ?_, fun _ => ?_, fun hbn => ?_⟩
    · rw [hr]
      simp [runDo, hm, hf, he, hc']
    · rw [hc'] at htrue
      exact Bool.noConfusion htrue
    · simp [runDo, hm, hf, he, hc']
    · subst hbn
      simp [runDo, hm, hf, he, hc']

/-- C9: when the text has no " # " delimiter the whole text is the
command, no comment is produced, and the canonical string printed is the
input unchanged. -/
theorem noDelimiterFallback (content : String)
    (h : pyContains cmdDelim content = false) :
    renderCommand content = content
    ∧ parseCommand content = (content, none)
    ∧ ∀ (model : List ChatMsg → Except String (List ChatMsg))
        (chatArg : Option ChatFileState) (bash : Option String)
        (updated : List ChatMsg) (m : ChatMsg),
        model (loadChatHistory chatArg).1 = Except.ok updated →
        findLastAssistant updated = some m →
        extractText m = Except.ok content →
        ("Command: " ++ content) ∈ (runDo model chatArg bash).stdout := by
  refine ⟨?_, ?_, ?_⟩
  · unfold renderCommand
    rw [if_neg (by simp [h])]
  · unfold parseCommand
    rw [if_neg (by simp [h])]
  · intro model chatArg bash updated m hm hf he
    simp [runDo, hm, hf, he, h]

/-- C1 (amended): the code splits the text on EVERY occurrence of " # ":
the command part is the segment before the first occurrence, the comment
source is the segment strictly between the first and the second occurrence
(not everything right of the first delimiter), and every occurrence of the
annotation inside that segment (not only a trailing one) is removed; on
the claim's example the canonical string is "ls -la # list files". -/
theorem parserRendering :
    (∀ content : String, renderCommand content = renderCommandAmended content)
    ∧ renderCommand "ls -la # list files * vity generated command"
        = "ls -la # list files" :=
  ⟨renderCommand_eq_amended, by decide⟩

/-- C1 counterexample: on "a # b # c" the code renders "a # b", while the
claim's reading (rest is everything right of the first delimiter, and the
absent annotation leaves rest unchanged) renders "a # b # c". -/
theorem parserRendering_cex :
    renderCommand "a # b # c" = "a # b"
    ∧ renderCommandSpec "a # b # c" = "a # b # c"
    ∧ renderCommand "a # b # c" ≠ renderCommandSpec "a # b # c" := by
  decide

/-- C2 witness: a concrete profile file with one block and clean
surrounding lines. -/
theorem reinstallExactness_witness :
    reinstallFile (["export PATH"] ++ "# Vity shell integration" ::
        (["    echo hi"] ++ "\x7d" :: ["alias ll"]))
      = (["export PATH"] ++ ["alias ll"]) ++ installAppendLines
    ∧ scanBlocks false ((["export PATH"] ++ ["alias ll"]) ++ installAppendLines)
        = (1, false) :=
  reinstallExactness ["export PATH"] ["    echo hi"] ["alias ll"]
    "# Vity shell integration" "\x7d" (by decide) (by decide)
    (by decide) (by decide) (by decide) (by decide)

/-- C2 counterexample: the profile file holds exactly one integration
block, but an outside line mentions the marker text inside a longer line;
after `reinstall` the re-install step sees that text and refuses to append,
so the file ends with zero blocks instead of one. -/
theorem reinstallExactness_cex :
    scanBlocks false ["echo # Vity shell integration",
      "# Vity shell integration", "    echo hi", "\x7d"] = (1, false)
    ∧ reinstallFile ["echo # Vity shell integration",
        "# Vity shell integration", "    echo hi", "\x7d"]
      = ["echo # Vity shell integration"]
    ∧ scanBlocks false (reinstallFile ["echo # Vity shell integration",
        "# Vity shell integration", "    echo hi", "\x7d"]) ≠ (1, false) := by
  decide

/-- C5 witness: a profile file without the marker text. -/
theorem installIdempotent_witness :
    installFile (installFile ["export PATH"]) = installFile ["export PATH"]
    ∧ countMarkerLines (installFile (installFile ["export PATH"])) = 1 := by
  have h := installIdempotent ["export PATH"]
  exact ⟨h.1, h.2 (by decide)⟩

/-- C5 counterexample: a profile file whose only line contains the marker
text inside a longer line; both installs no-op and the file ends with zero
marker lines, not one. -/
theorem installIdempotent_cex :
    installFile (installFile ["echo # Vity shell integration"])
      = ["echo # Vity shell integration"]
    ∧ countMarkerLines (installFile (installFile ["echo # Vity shell integration"])) = 0 := by
  decide

/-- C6 witness: the history [user, assistant, user, assistant] selects the
fourth message, which differs from the second. -/
theorem lastAssistantSelection_witness :
    findLastAssistant
      [mkMsg "user" "q1", mkMsg "assistant" "a1", mkMsg "user" "q2", mkMsg "assistant" "a2"]
      = some (mkMsg "assistant" "a2")
    ∧ mkMsg "assistant" "a2" ≠ mkMsg "assistant" "a1" := by
  constructor
  · have h := (lastAssistantSelection).1
      [mkMsg "user" "q1", mkMsg "assistant" "a1", mkMsg "user" "q2"] []
      (mkMsg "assistant" "a2") rfl (fun x hx => absurd hx (List.not_mem_nil x))
    simpa using h
  · decide

/-- C4 witness: the three degradation shapes at concrete messages. -/
theorem extractionDegrades_witness :
    extractText ⟨some "assistant", none⟩ = Except.ok ""
    ∧ extractText ⟨some "assistant", some [⟨none⟩]⟩ = Except.ok ""
    ∧ (runDo (fun _ => Except.ok [⟨some "assistant", some []⟩]) none none).exitCode = 1 :=
  ⟨(extractionDegrades ⟨some "assistant", none⟩).1 rfl,
    (extractionDegrades ⟨some "assistant", some [⟨none⟩]⟩).2.1 ⟨none⟩ [] rfl rfl,
    ((extractionDegrades ⟨some "assistant", some []⟩).2.2 rfl rfl none none).1⟩

/-- C4 counterexample: an assistant message with an empty content list
makes extraction raise (IndexError) instead of degrading to the empty
string, and the invocation exits 1. -/
theorem extractionDegrades_cex :
    extractText ⟨some "assistant", some []⟩ = Except.error "list index out of range"
    ∧ (runDo (fun _ => Except.ok [⟨some "assistant", some []⟩]) none none).exitCode = 1 :=
  ⟨rfl, by decide⟩

/-- C7 witness: the loader at each file state, with a failing and a
succeeding model call against a malformed file. -/
theorem chatHistoryLoadPolicy_witness :
    loadChatHistory (some (ChatFileState.wellFormed [mkMsg "user" "q"]))
      = ([mkMsg "user" "q"], [])
    ∧ (runDo (fun _ => Except.error "down") (some ChatFileState.malformed) none).chatFile
        = some ChatFileState.malformed
    ∧ (runDo (fun _ => Except.ok []) (some ChatFileState.malformed) none).chatFile
        = some (ChatFileState.wellFormed []) :=
  ⟨chatHistoryLoadPolicy.2.2.1 [mkMsg "user" "q"],
    chatHistoryLoadPolicy.2.2.2.1 (fun _ => Except.error "down") none "down" rfl,
    chatHistoryLoadPolicy.2.2.2.2 (fun _ => Except.ok []) none [] rfl rfl⟩

/-- C8 witness: a failing model call against a malformed chat file and an
existing shell-history file. -/
theorem modelFailureNoPersist_witness :
    (runDo (fun _ => Except.error "boom") (some ChatFileState.malformed) (some "h\n")).exitCode = 1
    ∧ (runDo (fun _ => Except.error "boom") (some ChatFileState.malformed) (some "h\n")).chatFile
        = some ChatFileState.malformed
    ∧ (runChat (fun _ => Except.error "boom") (some ChatFileState.malformed) (some "h\n")).exitCode = 1 := by
  have h := modelFailureNoPersist (fun _ => Except.error "boom")
    (some ChatFileState.malformed) (some "h\n") "boom" rfl
  exact ⟨h.1.1, h.1.2.1, h.2.1⟩

/-- C9 witness: the text "hello there" has no delimiter. -/
theorem noDelimiterFallback_witness :
    renderCommand "hello there" = "hello there"
    ∧ parseCommand "hello there" = ("hello there", none)
    ∧ ("Command: " ++ "hello there")
        ∈ (runDo (fun _ => Except.ok [mkMsg "assistant" "hello there"]) none none).stdout := by
  have h := noDelimiterFallback "hello there" (by decide)
  exact ⟨h.1, h.2.1,
    h.2.2 (fun _ => Except.ok [mkMsg "assistant" "hello there"]) none none
      [mkMsg "assistant" "hello there"] (mkMsg "assistant" "hello there") rfl (by decide) rfl⟩

/-- C10 witness: a chat invocation with no chat path and an existing
shell-history file. -/
theorem chatModeFrame_witness :
    (runChat (fun _ => Except.ok [mkMsg "assistant" "hi"]) none (some "h\n")).bashFile
      = some "h\n"
    ∧ (runChat (fun _ => Except.ok [mkMsg "assistant" "hi"]) none (some "h\n")).chatFile
      = none := by
  have h := chatModeFrame (fun _ => Except.ok [mkMsg "assistant" "hi"]) none (some "h\n")
  exact ⟨h.1, h.2 rfl⟩

/-- C3 witness: delimiter present, history file exists — printed and
appended with the annotation. -/
theorem doModeOutputs_witness :
    ("Command: " ++ renderCommand "ls -la # list files * vity generated command")
      ∈ (runDo (fun _ => Except.ok
          [mkMsg "assistant" "ls -la # list files * vity generated command"])
          none (some "old\n")).stdout
    ∧ (runDo (fun _ => Except.ok
          [mkMsg "assistant" "ls -la # list files * vity generated command"])
          none (some "old\n")).bashFile
        = some "old\nls -la # list files # Vity generated\n" := by
  have h := doModeOutputs
    (fun _ => Except.ok [mkMsg "assistant" "ls -la # list files * vity generated command"])
    none (some "old\n")
    [mkMsg "assistant" "ls -la # list files * vity generated command"]
    (mkMsg "assistant" "ls -la # list files * vity generated command")
    "ls -la # list files * vity generated command" rfl (by decide) rfl
  refine ⟨h.1, ?_⟩
  rw [h.2.1 (by decide)]
  decide

/-- C3 counterexample: text without the delimiter — the command is printed
but nothing is appended to the existing shell-history file, contradicting
the claim that the canonical string is appended whether or not the text
contained the delimiter. -/
theorem doModeOutputs_cex :
    ("Command: hello" ∈ (runDo (fun _ => Except.ok [mkMsg "assistant" "hello"])
        none (some "old\n")).stdout)
    ∧ (runDo (fun _ => Except.ok [mkMsg "assistant" "hello"])
        none (some "old\n")).bashFile = some "old\n"
    ∧ (runDo (fun _ => Except.ok [mkMsg "assistant" "hello"])
        none (some "old\n")).bashFile
      ≠ some ("old\n" ++ renderCommand "hello" ++ " # Vity generated\n") := by
  decide
